import Mathlib

/-!
Verification of the profile-recording admission webhook
(`internal/pkg/webhooks/recording`, file given as `src/unnamed/part_001`).

The Go source is shallowly embedded: the pod / recording data model becomes
Lean structures, the `sync.Map` replica counter becomes an association list
threaded through the functions, object-store writes are returned as values,
and the fallible external calls (decode, list, re-fetch) are supplied as
oracle parameters.  Helper functions of the repository that are not part of
the provided sources (`utils.RemoveIfExists`, `utils.AppendIfNotExists`,
`util.Contains`, `ProfileRecording.CtrAnnotation`, `IsKindSupported`, the
`config` constants) are modelled from the specification and carry a
`Modelled from the spec:` note.
-/

namespace SPORec

/-- Admission operation, the `AdmissionEvent` operation set of the spec's
data model (`operation ∈ \x7bCreate, Update, Delete\x7d`); the source only ever
branches on whether the operation equals `Delete`. -/
inductive Op where
  | create
  | update
  | delete
  deriving DecidableEq, Repr

/-- Recorded profile kind (`profileRecording.Spec.Kind`). -/
inductive ProfileKind where
  | seccomp
  | selinux
  | apparmor
  deriving DecidableEq, Repr

/-- Recorder backend (`profileRecording.Spec.Recorder`). -/
inductive Recorder where
  | logs
  | bpf
  deriving DecidableEq, Repr

/-- Pod labels / annotations: association lists of string pairs. -/
abbrev KVList := List (String × String)

/-- Look up a key in an association list (Go `map[string]string` read). -/
def lookupA (l : KVList) (k : String) : Option String :=
  (l.find? (fun kv => kv.1 == k)).map (·.2)

/-- Label selector, modelling the `matchLabels` fragment of
`metav1.LabelSelector`: every listed pair must be present in the pod's
labels.  The source treats the parsed selector abstractly through
`selector.Matches(podLabels)`. -/
structure Selector where
  matchLabels : KVList
  deriving DecidableEq, Repr

/-- `selector.Matches(podLabels)`. -/
def Selector.matches (s : Selector) (lbls : KVList) : Bool :=
  s.matchLabels.all (fun kv => lbls.contains kv)

/-- `corev1.SeccompProfile` (fields used by the source: `Type`,
`LocalhostProfile`). -/
structure SeccompProfile where
  type : String
  localhostProfile : Option String
  deriving DecidableEq, Repr

/-- `corev1.SELinuxOptions` (field used by the source: `Type`). -/
structure SELinuxOptions where
  type : String
  deriving DecidableEq, Repr

/-- `corev1.SecurityContext` restricted to the fields the source touches. -/
structure SecurityContext where
  seccompProfile : Option SeccompProfile
  seLinuxOptions : Option SELinuxOptions
  deriving DecidableEq, Repr

/-- `corev1.Container` restricted to the fields the source touches. -/
structure Container where
  name : String
  securityContext : Option SecurityContext
  deriving DecidableEq, Repr

/-- `corev1.Pod` restricted to the fields the source touches. -/
structure Pod where
  name : String
  generateName : String
  labels : KVList
  annotations : KVList
  initContainers : List Container
  containers : List Container
  deriving DecidableEq, Repr

/-- `&corev1.Pod\x7b\x7d`: the zero pod the handler uses on Delete, where the
payload is not decoded. -/
def emptyPod : Pod :=
  { name := ""
  , generateName := ""
  , labels := []
  , annotations := []
  , initContainers := []
  , containers := [] }

/-- `profilerecordingv1alpha1.ProfileRecording` restricted to the fields the
source touches: metadata name, pod selector, optional container allow-list,
recorder and kind, finalizer list, and the status' active-workload list. -/
structure ProfileRecording where
  name : String
  podSelector : Selector
  containers : Option (List String)
  recorder : Recorder
  kind : ProfileKind
  finalizers : List String
  activeWorkloads : List String
  deriving DecidableEq, Repr

/-- The finalizer string constant of the source. -/
def finalizer : String := "active-seccomp-profile-recording-lock"

/-- Modelled from the spec: `ProfileRecording.IsKindSupported` is not among
the provided sources.  §4.4 of the spec describes recorder behaviour only
for seccomp and SELinux recordings, and the source's kind switch in
`updateSecurityContext` handles exactly those two kinds. -/
def isKindSupported (k : ProfileKind) : Bool :=
  match k with
  | .seccomp => true
  | .selinux => true
  | .apparmor => false

/-- `controllerutil.ContainsFinalizer(profileRecording, finalizer)`. -/
def containsFinalizer (r : ProfileRecording) : Bool :=
  r.finalizers.contains finalizer

/-- The process-wide replica counter (`sync.Map` with `uint` values),
modelled as an association list; `Range` iterates in list order. -/
abbrev ReplicaMap := List (String × Nat)

/-- `sync.Map.Load` restricted to this map's key/value types. -/
def rLookup (m : ReplicaMap) (k : String) : Option Nat :=
  (m.find? (fun kv => kv.1 == k)).map (·.2)

/-- `sync.Map.Store`: replace the value under `k`, or add the entry. -/
def rStore (m : ReplicaMap) (k : String) (v : Nat) : ReplicaMap :=
  match m with
  | [] => [(k, v)]
  | kv :: rest => if kv.1 == k then (k, v) :: rest else kv :: rStore rest k v

/-- `strings.HasPrefix(s, p)`: `p` is a leading piece of `s`.  Defined on
the character lists so that the kernel evaluates it directly. -/
def isPre : List Char → List Char → Bool
  | [], _ => true
  | _ :: _, [] => false
  | a :: as, b :: bs => a == b && isPre as bs

/-- `strings.HasPrefix` on strings. -/
def hasPre (s p : String) : Bool := isPre p.data s.data

/-- Decimal digit character (`'0'` + d for d < 10), used to embed Go's
`fmt.Sprintf("%d", v)`. -/
def digChar : Nat → Char
  | 0 => '0'
  | 1 => '1'
  | 2 => '2'
  | 3 => '3'
  | 4 => '4'
  | 5 => '5'
  | 6 => '6'
  | 7 => '7'
  | 8 => '8'
  | 9 => '9'
  | _ => '*'

/-- Fuel-bounded digit accumulation: pushes the decimal digits of `n`
(most significant first) in front of `acc`.  `fuel ≥ n` suffices. -/
def decRun : Nat → Nat → List Char → List Char
  | 0, _, acc => acc
  | fuel + 1, n, acc =>
    if n < 10 then digChar n :: acc
    else decRun fuel (n / 10) (digChar (n % 10) :: acc)

/-- Decimal rendering of a natural number, the embedding of Go's
`fmt.Sprintf("%d", v)` (same digits as `Nat.repr`). -/
def decRepr (n : Nat) : String := String.mk (decRun (n + 1) n [])

/-- `replicaKey(recordingName, podName)` = `recordingName + "/" + podName`. -/
def replicaKey (recordingName podName : String) : String :=
  recordingName ++ "/" ++ podName

/-- `getReplica`: when the pod has no concrete name but a generate-name
piece, read the counter under `replicaKey(recording, generateName)`
(`LoadOrStore` with default 0), render `"-%d"` of the value observed, and
store the incremented value; otherwise return the empty suffix without
touching the map. -/
def getReplica (pod : Pod) (pr : ProfileRecording) (m : ReplicaMap) :
    String × ReplicaMap :=
  if pod.name = "" ∧ pod.generateName ≠ "" then
    let rKey := replicaKey pr.name pod.generateName
    let v := (rLookup m rKey).getD 0
    ("-" ++ decRepr v, rStore m rKey (v + 1))
  else
    ("", m)

/-- The body of `cleanupReplicas`'s `sync.Map.Range` callback: walk the
entries in order; on the first entry whose key is a leading piece of
`rKey` (`strings.HasPrefix(rKey, keyString)`), delete it and stop the
iteration (the callback returns `false`); otherwise continue. -/
def cleanupRun : ReplicaMap → String → ReplicaMap
  | [], _ => []
  | kv :: rest, rKey =>
    if hasPre rKey kv.1 then rest else kv :: cleanupRun rest rKey

/-- `cleanupReplicas(recordingName, podName)`. -/
def cleanupReplicas (m : ReplicaMap) (recordingName podName : String) :
    ReplicaMap :=
  cleanupRun m (replicaKey recordingName podName)

/-- The fixed environment of the handler: `p.impl.GetOperatorNamespace()`. -/
structure Impl where
  operatorNamespace : String
  deriving DecidableEq, Repr

/-- Modelled from the spec: `config.LogEnricherProfile` is not among the
provided sources; §6 fixes the localhost path convention
`operator/<namespace>/<fixedProfileName>.json`.  The constant's value is
immaterial to the claims, which reference it symbolically. -/
def logEnricherProfile : String := "log-enricher-trace"

/-- Modelled from the spec: `config.SelinuxPermissiveProfile` is not among
the provided sources; §6 fixes "SELinux type string fixed to a configured
permissive type". -/
def selinuxPermissiveProfile : String := "selinuxrecording.process"

/-- `updateSeccompSecurityContext`: ensure the security context and its
seccomp profile exist, then force `Type = Localhost` and the localhost
profile path `operator/<operator-namespace>/<log-enricher-profile>.json`. -/
def updateSeccompSecurityContext (impl : Impl) (ctr : Container) :
    Container :=
  let sc := ctr.securityContext.getD
    { seccompProfile := none, seLinuxOptions := none }
  let profile :=
    "operator/" ++ impl.operatorNamespace ++ "/" ++ logEnricherProfile
      ++ ".json"
  { ctr with
    securityContext := some
      { sc with
        seccompProfile := some
          { type := "Localhost", localhostProfile := some profile } } }

/-- `updateSelinuxSecurityContext`: ensure the security context and its
SELinux options exist, then force the configured permissive type. -/
def updateSelinuxSecurityContext (ctr : Container) : Container :=
  let sc := ctr.securityContext.getD
    { seccompProfile := none, seLinuxOptions := none }
  { ctr with
    securityContext := some
      { sc with seLinuxOptions := some { type := selinuxPermissiveProfile } } }

/-- `updateSecurityContext`: only the `Logs` recorder needs the special
security context; dispatch on the recording kind (the switch has cases for
seccomp and SELinux only). -/
def updateSecurityContext (impl : Impl) (ctr : Container)
    (pr : ProfileRecording) : Container :=
  if pr.recorder ≠ .logs then ctr
  else
    match pr.kind with
    | .seccomp => updateSeccompSecurityContext impl ctr
    | .selinux => updateSelinuxSecurityContext ctr
    | .apparmor => ctr

/-- `shouldRecordContainer`: allow all containers when the recording lists
none explicitly, else only the listed names (`util.Contains`, membership,
modelled from the spec: "only those whose name is listed"). -/
def shouldRecordContainer (containerName : String)
    (pr : ProfileRecording) : Bool :=
  match pr.containers with
  | none => true
  | some cs => cs.contains containerName

/-- Modelled from the spec: `ProfileRecording.CtrAnnotation` is not among
the provided sources; §4.4/§6 give the key format
`<domain-prefix>/<recordingName><replicaSuffix>_<containerName>`. -/
def ctrAnnotationKey (pr : ProfileRecording) (replica ctrName : String) :
    String :=
  "io.spo.x-k8s.io/" ++ pr.name ++ replica ++ "_" ++ ctrName

/-- Modelled from the spec: the annotation value computed by
`CtrAnnotation`, "the configured output path/reference for that profile
kind" (§4.4); a definite reference string. -/
def ctrAnnotationValue (pr : ProfileRecording) (replica ctrName : String) :
    String :=
  pr.name ++ replica ++ "_" ++ ctrName ++ ".json"

/-- The container references `updatePod` collects: init containers first,
then regular containers, each kept when `shouldRecordContainer` allows it
(only the names matter for the annotation loop). -/
def selectedContainerNames (pod : Pod) (pr : ProfileRecording) :
    List String :=
  ((pod.initContainers ++ pod.containers).map (·.name)).filter
    (fun n => shouldRecordContainer n pr)

/-- One iteration of `updatePod`'s annotation loop: compute the key and
value for the container; if the pod has no annotation under the key, add
it and mark the pod changed; otherwise leave the annotations untouched
(the differing-value case only logs). -/
def annotateStep (pr : ProfileRecording) (replica : String)
    (acc : KVList × Bool) (ctrName : String) : KVList × Bool :=
  let key := ctrAnnotationKey pr replica ctrName
  match lookupA acc.1 key with
  | none => (acc.1 ++ [(key, ctrAnnotationValue pr replica ctrName)], true)
  | some _ => acc

/-- `updatePod`: resolve the replica suffix, rewrite the security context
of every selected container (in place in Go, by mapping here), and run the
annotation loop over the selected containers (init first, then regular);
returns the mutated pod, the `podChanged` flag, and the replica map.  The
`podName` argument is only used for logging in the source. -/
def updatePod (impl : Impl) (pod : Pod) (podName : String)
    (pr : ProfileRecording) (m : ReplicaMap) : Pod × Bool × ReplicaMap :=
  let rep := getReplica pod pr m
  let upd := fun (c : Container) =>
    if shouldRecordContainer c.name pr then updateSecurityContext impl c pr
    else c
  let anns := (selectedContainerNames pod pr).foldl
    (annotateStep pr rep.1) (pod.annotations, false)
  ( { pod with
      initContainers := pod.initContainers.map upd
    , containers := pod.containers.map upd
    , annotations := anns.1 }
  , anns.2
  , rep.2 )

/-- Modelled from the spec: `utils.RemoveIfExists` is not among the
provided sources; §4.3 step 2 says "on Delete, remove the current pod name
if present". -/
def removeIfExists (l : List String) (s : String) : List String :=
  l.filter (fun x => x ≠ s)

/-- Modelled from the spec: `utils.AppendIfNotExists` is not among the
provided sources; §4.3 step 2 says "add the current pod name if the
selector matches and it is not already present". -/
def appendIfNotExists (l : List String) (s : String) : List String :=
  if l.contains s then l else l ++ [s]

/-- `setActiveWorkloads`: start from the names of the live recorded-pods
snapshot; on Delete remove the current pod name, otherwise append it when
the selector matches the pod's labels; write the result to the recording's
status (the store write is modelled as succeeding, the written object is
the result). -/
def setActiveWorkloads (op : Op) (pr : ProfileRecording)
    (selector : Selector) (podName : String) (podLabels : KVList)
    (recordedPods : List String) : ProfileRecording :=
  let newActiveWorkloads :=
    if op = .delete then removeIfExists recordedPods podName
    else if selector.matches podLabels then
      appendIfNotExists recordedPods podName
    else recordedPods
  { pr with activeWorkloads := newActiveWorkloads }

/-- `anyPodMatch`: true when the snapshot is non-empty and either the
operation is not Delete or some snapshot pod has a name different from the
pod being deleted; otherwise fall through to "not Delete and the selector
matches the pod's labels". -/
def anyPodMatch (op : Op) (selector : Selector) (podLabels : KVList)
    (podName : String) (foundPods : List String) : Bool :=
  (!foundPods.isEmpty
      && (op != Op.delete || foundPods.any (fun n => n != podName)))
    || (op != Op.delete && selector.matches podLabels)

/-- `setFinalizers`: add the finalizer when `anyPodMatch` holds and it is
absent; remove it (and clean up the replica counters) when `anyPodMatch`
fails and it is present; then write the recording (write modelled as
succeeding, the written object is the result). -/
def setFinalizers (op : Op) (pr : ProfileRecording) (selector : Selector)
    (podName : String) (podLabels : KVList) (recordedPods : List String)
    (m : ReplicaMap) : ProfileRecording × ReplicaMap :=
  if anyPodMatch op selector podLabels podName recordedPods then
    ( if containsFinalizer pr then pr
      else { pr with finalizers := pr.finalizers ++ [finalizer] }
    , m )
  else
    if containsFinalizer pr then
      ( { pr with finalizers := pr.finalizers.filter (fun f => f ≠ finalizer) }
      , cleanupReplicas m pr.name podName )
    else (pr, m)

/-- Outcome of the re-fetch `p.impl.GetProfileRecording` performed inside
`setRecordingReferences`. -/
inductive FetchResult where
  | found (pr : ProfileRecording)
  | notFound
  | fetchErr (msg : String)
  deriving DecidableEq, Repr

/-- `setRecordingReferences`: re-fetch the recording; a not-found result is
a benign no-op (`.ok` with no written recording and the map unchanged);
any other fetch error is wrapped and propagated; on success run
`setActiveWorkloads` then `setFinalizers` and return the written
recording together with the replica map. -/
def setRecordingReferences (op : Op) (fetch : FetchResult)
    (selector : Selector) (podName : String) (podLabels : KVList)
    (recordedPods : List String) (m : ReplicaMap) :
    Except String (Option ProfileRecording × ReplicaMap) :=
  match fetch with
  | .notFound => .ok (none, m)
  | .fetchErr msg =>
    .error ("cannot retrieve profilerecording: " ++ msg)
  | .found fresh =>
    let r1 := setActiveWorkloads op fresh selector podName podLabels
      recordedPods
    let r2 := setFinalizers op r1 selector podName podLabels recordedPods m
    .ok (some r2.1, r2.2)

/-- The admission decision `Handle` produces:
`admission.Allowed("pod unchanged")`, a patch response computed from the
mutated pod, or an errored response. -/
inductive Decision where
  | allowedUnchanged
  | patched (pod : Pod)
  | errored
  deriving DecidableEq, Repr

/-- The recording loop of `Handle`: skip unsupported kinds; call
`setRecordingReferences` (inside `util.Retry`, which in this model never
observes a conflict and so runs the body once) and fail the request on its
error; when the selector matches the pod's labels, call `updatePod`,
overwriting the `podChanged` flag with that invocation's result exactly as
the source's `podChanged, err = p.updatePod(...)` does.  The `invoked`
accumulator records the recordings for which `updatePod` ran. -/
def handleLoop (impl : Impl) (op : Op) (podName : String)
    (podLabels : KVList) (recordedPodsOf : String → List String)
    (fetchOf : String → FetchResult) :
    List ProfileRecording → Pod → Bool → ReplicaMap → List String →
    Except String (Pod × Bool × ReplicaMap × List String)
  | [], pod, podChanged, m, invoked => .ok (pod, podChanged, m, invoked)
  | item :: rest, pod, podChanged, m, invoked =>
    if !isKindSupported item.kind then
      handleLoop impl op podName podLabels recordedPodsOf fetchOf rest pod
        podChanged m invoked
    else
      match setRecordingReferences op (fetchOf item.name) item.podSelector
        podName podLabels (recordedPodsOf item.name) m with
      | .error e => .error e
      | .ok (_, m') =>
        if item.podSelector.matches podLabels then
          let res := updatePod impl pod podName item m'
          handleLoop impl op podName podLabels recordedPodsOf fetchOf rest
            res.1 res.2.1 res.2.2 (invoked ++ [item.name])
        else
          handleLoop impl op podName podLabels recordedPodsOf fetchOf rest
            pod podChanged m' invoked

/-- The observable outcome of `Handle`: the admission decision, the final
replica-counter map, and (for the successful path) the list of recordings
for which the Pod Mutator was invoked. -/
structure HandleOut where
  decision : Decision
  replicas : ReplicaMap
  invoked : List String
  deriving DecidableEq, Repr

/-- `Handle`: on Delete the pod payload is not decoded and the zero pod is
used; the effective pod name is the request's name or, when empty, the
pod's generate-name; run the recording loop; return the unmodified-allow
decision when `podChanged` is false, else the patch decision carrying the
mutated pod.  The listing of recordings and the per-recording snapshots
are supplied as inputs (their error paths return an errored decision
before any of the modelled logic runs). -/
def Handle (impl : Impl) (recordings : List ProfileRecording) (op : Op)
    (reqName : String) (decodedPod : Pod)
    (recordedPodsOf : String → List String)
    (fetchOf : String → FetchResult) (m0 : ReplicaMap) : HandleOut :=
  let pod0 := if op = .delete then emptyPod else decodedPod
  let podName := if reqName ≠ "" then reqName else pod0.generateName
  let podLabels := pod0.labels
  match handleLoop impl op podName podLabels recordedPodsOf fetchOf
    recordings pod0 false m0 [] with
  | .error _ => { decision := .errored, replicas := m0, invoked := [] }
  | .ok (pod, podChanged, m, invoked) =>
    if !podChanged then
      { decision := .allowedUnchanged, replicas := m, invoked := invoked }
    else
      { decision := .patched pod, replicas := m, invoked := invoked }

/-- `n` successive replica resolutions for the same pod shape, threading
the counter map: the list of suffixes produced. -/
def replicaRuns (pod : Pod) (pr : ProfileRecording) :
    Nat → ReplicaMap → List String
  | 0, _ => []
  | n + 1, m =>
    let r := getReplica pod pr m
    r.1 :: replicaRuns pod pr n r.2

/-- Decimal value of a digit list, the decoding inverse of `decRun`. -/
def decVal : List Char → Nat
  | [] => 0
  | c :: cs => (c.toNat - 48) * 10 ^ cs.length + decVal cs

theorem digChar_toNat {d : Nat} (h : d < 10) : (digChar d).toNat = 48 + d := by
  interval_cases d <;> rfl

theorem decVal_decRun :
    ∀ fuel n acc, n < fuel →
      decVal (decRun fuel n acc) = n * 10 ^ acc.length + decVal acc := by
  intro fuel
  induction fuel with
  | zero => intro n acc h; omega
  | succ fuel ih =>
    intro n acc h
    by_cases hn : n < 10
    · have hmod : n % 10 = n := Nat.mod_eq_of_lt hn
      simp [decRun, hn, decVal, digChar_toNat hn]
    · have hpos : 0 < n := by omega
      have hdiv : n / 10 < n := Nat.div_lt_self hpos (by omega)
      have hfuel : n / 10 < fuel := by omega
      have hM : n % 10 < 10 := Nat.mod_lt _ (by omega)
      rw [decRun, if_neg hn, ih _ _ hfuel]
      simp only [decVal, List.length_cons, digChar_toNat hM]
      have : 48 + n % 10 - 48 = n % 10 := by omega
      rw [this, pow_succ]
      have hdm := Nat.div_add_mod n 10
      calc n / 10 * (10 ^ acc.length * 10)
            + (n % 10 * 10 ^ acc.length + decVal acc)
          = (10 * (n / 10) + n % 10) * 10 ^ acc.length + decVal acc := by ring
        _ = n * 10 ^ acc.length + decVal acc := by rw [hdm]

theorem decVal_decRepr (n : Nat) : decVal (decRepr n).data = n := by
  have h := decVal_decRun (n + 1) n [] (by omega)
  simpa [decRepr, decVal] using h

theorem decRepr_injective : Function.Injective decRepr := by
  intro a b h
  have := congrArg (fun s => decVal s.data) h
  simpa [decVal_decRepr] using this

theorem dash_decRepr_injective :
    Function.Injective (fun v => "-" ++ decRepr v) := by
  intro a b h
  have h2 : ('-' :: (decRepr a).data) = ('-' :: (decRepr b).data) := by
    simpa [String.data_append] using congrArg String.data h
  exact decRepr_injective (String.ext (List.tail_eq_of_cons_eq h2))

theorem rLookup_rStore_self (m : ReplicaMap) (k : String) (v : Nat) :
    rLookup (rStore m k v) k = some v := by
  induction m with
  | nil => simp [rStore, rLookup]
  | cons kv rest ih =>
    by_cases h : (kv.1 == k) = true
    · simp [rStore, h, rLookup]
    · simp only [rStore, if_neg h]
      simpa [rLookup, List.find?, h] using ih

theorem replicaRuns_eq (pod : Pod) (pr : ProfileRecording)
    (h1 : pod.name = "") (h2 : pod.generateName ≠ "") :
    ∀ n m v, rLookup m (replicaKey pr.name pod.generateName) = some v →
      replicaRuns pod pr n m
        = (List.range n).map (fun i => "-" ++ decRepr (v + i)) := by
  intro n
  induction n with
  | zero => simp [replicaRuns]
  | succ n ih =>
    intro m v hm
    have hg : getReplica pod pr m
        = ("-" ++ decRepr v,
           rStore m (replicaKey pr.name pod.generateName) (v + 1)) := by
      simp [getReplica, h1, h2, hm]
    have hrest := ih (rStore m (replicaKey pr.name pod.generateName) (v + 1))
      (v + 1) (rLookup_rStore_self _ _ _)
    rw [replicaRuns, hg]
    simp only [hrest, List.range_succ_eq_map, List.map_cons, List.map_map]
    congr 1
    apply List.map_congr_left
    intro i _
    simp only [Function.comp_apply]
    congr 2
    omega

theorem replicaRuns_from_fresh (pod : Pod) (pr : ProfileRecording)
    (h1 : pod.name = "") (h2 : pod.generateName ≠ "") (n : Nat)
    (m : ReplicaMap)
    (hm : rLookup m (replicaKey pr.name pod.generateName) = none) :
    replicaRuns pod pr n m
      = (List.range n).map (fun i => "-" ++ decRepr i) := by
  cases n with
  | zero => simp [replicaRuns]
  | succ n =>
    have hg : getReplica pod pr m
        = ("-" ++ decRepr 0,
           rStore m (replicaKey pr.name pod.generateName) 1) := by
      simp [getReplica, h1, h2, hm]
    have hrest := replicaRuns_eq pod pr h1 h2 n
      (rStore m (replicaKey pr.name pod.generateName) 1) 1
      (rLookup_rStore_self _ _ _)
    rw [replicaRuns, hg]
    simp only [hrest, List.range_succ_eq_map, List.map_cons, List.map_map]
    congr 1
    apply List.map_congr_left
    intro i _
    simp only [Function.comp_apply]
    congr 2
    omega

/- Shared concrete fixtures for witnesses and counterexamples. -/

/-- A selector with no requirements: matches every label set. -/
def selAll : Selector := { matchLabels := [] }

/-- A logs/seccomp recording named `rec1` with no container allow-list. -/
def recA : ProfileRecording :=
  { name := "rec1", podSelector := selAll, containers := none,
    recorder := .logs, kind := .seccomp, finalizers := [],
    activeWorkloads := [] }

/-- A recording whose container allow-list names no container of the test
pod. -/
def recB : ProfileRecording :=
  { recA with name := "rec2", containers := some ["zzz"] }

/-- `recA` carrying the finalizer. -/
def recFin : ProfileRecording := { recA with finalizers := [finalizer] }

/-- A pod with a concrete name and one container. -/
def podConc : Pod :=
  { name := "mypod", generateName := "", labels := [], annotations := [],
    initContainers := [],
    containers := [{ name := "app", securityContext := none }] }

/-- A pod known only by its generate-name piece. -/
def genPodA : Pod :=
  { name := "", generateName := "web-", labels := [], annotations := [],
    initContainers := [], containers := [] }

/-- A fixed operator environment. -/
def implA : Impl := { operatorNamespace := "spo" }

/-- C6: replica resolution.  A pod with a concrete name or without a
generate-name piece resolves to the empty suffix with the counter map
untouched; otherwise, starting from a map with no entry for the key
`(recording name, generate-name)`, `n` successive sequential resolutions
yield exactly the suffixes `"-0"` through `"-(n-1)"` (the hyphen plus the
counter value observed before the increment), and these are pairwise
distinct. -/
theorem C6_replica_resolution :
    (∀ (pod : Pod) (pr : ProfileRecording) (m : ReplicaMap),
      pod.name ≠ "" ∨ pod.generateName = "" → getReplica pod pr m = ("", m))
    ∧ (∀ (pod : Pod) (pr : ProfileRecording) (n : Nat) (m : ReplicaMap),
        pod.name = "" → pod.generateName ≠ "" →
        rLookup m (replicaKey pr.name pod.generateName) = none →
        replicaRuns pod pr n m
            = (List.range n).map (fun i => "-" ++ decRepr i)
          ∧ (replicaRuns pod pr n m).Nodup) := by
  constructor
  · intro pod pr m h
    have hc : ¬(pod.name = "" ∧ pod.generateName ≠ "") := by
      rcases h with h | h
      · exact fun hx => h hx.1
      · exact fun hx => hx.2 h
    simp [getReplica, hc]
  · intro pod pr n m hn hg hm
    refine ⟨replicaRuns_from_fresh pod pr hn hg n m hm, ?_⟩
    rw [replicaRuns_from_fresh pod pr hn hg n m hm]
    exact (List.nodup_range n).map dash_decRepr_injective

/-- Witness for C6 at concrete inputs: a concretely named pod resolves to
the empty suffix, and three resolutions for generate-name `web-` give the
distinct suffixes `-0`, `-1`, `-2`. -/
theorem C6_witness :
    getReplica podConc recA [] = ("", [])
    ∧ replicaRuns genPodA recA 3 [] = ["-0", "-1", "-2"]
    ∧ (replicaRuns genPodA recA 3 []).Nodup := by
  refine ⟨C6_replica_resolution.1 podConc recA [] (Or.inl (by decide)),
    ?_, (C6_replica_resolution.2 genPodA recA 3 [] rfl (by decide) rfl).2⟩
  have h := (C6_replica_resolution.2 genPodA recA 3 [] rfl (by decide) rfl).1
  rw [h]
  decide

/-- Claim C1's finalizer condition, formalized from the claim's own words
(spec-side definition, for comparison with the source's `anyPodMatch`):
"the live recorded-pods snapshot is non-empty and the operation is not a
Delete of the last remaining pod, or some pod in the snapshot has a name
different from the pod being deleted". -/
def claimFinalizerCond (op : Op) (podName : String)
    (foundPods : List String) : Bool :=
  (!foundPods.isEmpty
      && !(op == Op.delete && foundPods.all (fun n => n == podName)))
    || foundPods.any (fun n => n != podName)

theorem anyPodMatch_characterization (op : Op) (sel : Selector)
    (podLabels : KVList) (podName : String) (pods : List String) :
    anyPodMatch op sel podLabels podName pods
      = (claimFinalizerCond op podName pods
          || (op != Op.delete && sel.matches podLabels)) := by
  have hdual : ∀ (xs : List String),
      (!xs.all (fun n => n == podName)) = xs.any (fun n => n != podName) := by
    intro xs
    rw [List.all_eq_not_any_not]
    simp [bne]
  cases op with
  | delete =>
    rcases pods with _ | ⟨a, l⟩ <;>
      simp [anyPodMatch, claimFinalizerCond, Bool.not_and, hdual]
  | create =>
    rcases pods with _ | ⟨a, l⟩ <;>
      simp [anyPodMatch, claimFinalizerCond, Bool.not_and, hdual,
        show (Op.create != Op.delete) = true by decide,
        show (Op.create == Op.delete) = false by decide]
  | update =>
    rcases pods with _ | ⟨a, l⟩ <;>
      simp [anyPodMatch, claimFinalizerCond, Bool.not_and, hdual,
        show (Op.update != Op.delete) = true by decide,
        show (Op.update == Op.delete) = false by decide]

/-- C1 (amended): after `setFinalizers` the finalizer is present on the
written recording iff the claim's condition holds **or the operation is
not Delete and the selector matches the pod's labels** (a pod about to
exist); the claim as frozen omits this last disjunct, see
`C1_counterexample`. -/
theorem C1_finalizer_presence (op : Op) (pr : ProfileRecording)
    (sel : Selector) (podName : String) (podLabels : KVList)
    (recordedPods : List String) (m : ReplicaMap) :
    containsFinalizer
        (setFinalizers op pr sel podName podLabels recordedPods m).1
      = (claimFinalizerCond op podName recordedPods
          || (op != Op.delete && sel.matches podLabels)) := by
  rw [← anyPodMatch_characterization op sel podLabels podName recordedPods]
  cases hA : anyPodMatch op sel podLabels podName recordedPods with
  | true =>
    by_cases hf : finalizer ∈ pr.finalizers
    · simp [setFinalizers, hA, containsFinalizer, hf]
    · simp [setFinalizers, hA, containsFinalizer, hf]
  | false =>
    by_cases hf : finalizer ∈ pr.finalizers
    · simp [setFinalizers, hA, containsFinalizer, hf, List.mem_filter]
    · simp [setFinalizers, hA, containsFinalizer, hf]

/-- C1 counterexample: with an empty live snapshot, a Create operation and
a selector matching the pod's labels, the code leaves the finalizer
present (added by `setFinalizers` because `anyPodMatch` sees a pod about
to exist) while the claim's condition is false, i.e. the claim predicts
the finalizer is absent. -/
theorem C1_counterexample :
    containsFinalizer (setFinalizers .create recA selAll "p" [] [] []).1
        = true
    ∧ claimFinalizerCond .create "p" [] = false := by decide

/-- C4: the new active-workload list is exactly the snapshot's names, with
the current pod name filtered out on Delete, appended when the operation
is not Delete, the selector matches and the name is absent, and unchanged
otherwise; it stays duplicate-free when the snapshot is, and recomputation
from identical inputs is identical. -/
theorem C4_active_workloads (op : Op) (pr : ProfileRecording)
    (sel : Selector) (podName : String) (podLabels : KVList)
    (recordedPods : List String) (hnd : recordedPods.Nodup) :
    ((setActiveWorkloads op pr sel podName podLabels
          recordedPods).activeWorkloads
        = (if op = .delete then recordedPods.filter (fun x => x ≠ podName)
           else if sel.matches podLabels && !recordedPods.contains podName
             then recordedPods ++ [podName]
           else recordedPods))
    ∧ (setActiveWorkloads op pr sel podName podLabels
        recordedPods).activeWorkloads.Nodup
    ∧ setActiveWorkloads op pr sel podName podLabels recordedPods
        = setActiveWorkloads op pr sel podName podLabels recordedPods := by
  refine ⟨?_, ?_, rfl⟩
  · unfold setActiveWorkloads removeIfExists appendIfNotExists
    by_cases hop : op = .delete
    · simp [hop]
    · by_cases hm : sel.matches podLabels = true
      · by_cases hc : recordedPods.contains podName = true
        · simp [hop, hm, hc]
        · simp [hop, hm, hc]
      · simp [hop, hm]
  · unfold setActiveWorkloads removeIfExists appendIfNotExists
    by_cases hop : op = .delete
    · simpa [hop] using hnd.filter _
    · by_cases hm : sel.matches podLabels = true
      · by_cases hc : recordedPods.contains podName = true
        · have hmem : podName ∈ recordedPods := by simpa using hc
          simpa [hop, hm, hmem] using hnd
        · have hmem : podName ∉ recordedPods := by simpa using hc
          simp [hop, hm, hc, List.nodup_append, hnd, hmem]
      · simpa [hop, hm] using hnd

/-- Witness for C4 at a concrete input: a duplicate-free two-name
snapshot, a Create of a matching pod not yet in the list. -/
theorem C4_witness :
    (["a", "b"] : List String).Nodup
    ∧ (((setActiveWorkloads .create recA selAll "p" []
            ["a", "b"]).activeWorkloads
        = (if Op.create = Op.delete
            then (["a", "b"] : List String).filter (fun x => x ≠ "p")
           else if selAll.matches [] && !(["a", "b"] : List String).contains "p"
             then ["a", "b"] ++ ["p"]
           else ["a", "b"]))
      ∧ (setActiveWorkloads .create recA selAll "p" []
          ["a", "b"]).activeWorkloads.Nodup
      ∧ setActiveWorkloads .create recA selAll "p" [] ["a", "b"]
          = setActiveWorkloads .create recA selAll "p" [] ["a", "b"]) :=
  ⟨by decide, C4_active_workloads .create recA selAll "p" [] ["a", "b"]
    (by decide)⟩

theorem cleanupRun_sublist (m : ReplicaMap) (k : String) :
    (cleanupRun m k).Sublist m := by
  induction m with
  | nil => simp [cleanupRun]
  | cons kv rest ih =>
    unfold cleanupRun
    by_cases h : hasPre k kv.1 = true
    · simpa [h] using List.sublist_cons_self kv rest
    · simpa [h] using ih.cons₂ kv

theorem cleanupRun_length (m : ReplicaMap) (k : String) :
    m.length ≤ (cleanupRun m k).length + 1 := by
  induction m with
  | nil => simp [cleanupRun]
  | cons kv rest ih =>
    unfold cleanupRun
    by_cases h : hasPre k kv.1 = true
    · simp [h]
    · rw [if_neg h]
      simp only [List.length_cons]
      omega

theorem cleanupRun_removed (m : ReplicaMap) (k : String) :
    ∀ kv ∈ m, kv ∉ cleanupRun m k → hasPre k kv.1 = true := by
  induction m with
  | nil => simp
  | cons kv0 rest ih =>
    intro kv hmem hnot
    unfold cleanupRun at hnot
    by_cases h : hasPre k kv0.1 = true
    · rw [if_pos h] at hnot
      rcases List.mem_cons.mp hmem with rfl | hmem'
      · exact h
      · exact absurd hmem' hnot
    · rw [if_neg h] at hnot
      rcases List.mem_cons.mp hmem with rfl | hmem'
      · exact absurd (List.mem_cons_self _ _) hnot
      · exact ih kv hmem' (fun hx => hnot (List.mem_cons_of_mem _ hx))

/-- C5 (amended): when `setFinalizers` removes the finalizer, the new
replica map is `cleanupReplicas`, which removes **at most one** entry — in
iteration order, the first entry whose key is a leading piece of
`<recordingName>/<podName>`; every removed entry has such a key, and
entries merely keyed with the recording name's prefix are not necessarily
removed (see `C5_counterexample`). -/
theorem C5_cleanup (op : Op) (pr : ProfileRecording) (sel : Selector)
    (podName : String) (podLabels : KVList) (recordedPods : List String)
    (m : ReplicaMap)
    (hfin : containsFinalizer pr = true)
    (hnomatch : anyPodMatch op sel podLabels podName recordedPods = false) :
    (setFinalizers op pr sel podName podLabels recordedPods m).2
        = cleanupReplicas m pr.name podName
    ∧ (cleanupReplicas m pr.name podName).Sublist m
    ∧ m.length ≤ (cleanupReplicas m pr.name podName).length + 1
    ∧ (∀ kv ∈ m, kv ∉ cleanupReplicas m pr.name podName →
        hasPre (replicaKey pr.name podName) kv.1 = true) := by
  refine ⟨?_, cleanupRun_sublist m _, cleanupRun_length m _,
    cleanupRun_removed m _⟩
  simp [setFinalizers, hnomatch, hfin]

/-- Witness for C5 at a concrete input: the recording carries the
finalizer, no pod matches any more, and the single map entry (whose key is
a leading piece of the replica key) is removed. -/
theorem C5_witness :
    (containsFinalizer recFin = true
      ∧ anyPodMatch .delete selAll [("x", "y")] "web-1" [] = false)
    ∧ (setFinalizers .delete recFin selAll "web-1" [("x", "y")] []
        [("rec1/web-", 0)]).2
        = cleanupReplicas [("rec1/web-", 0)] recFin.name "web-1" :=
  ⟨⟨by decide, by decide⟩,
   (C5_cleanup .delete recFin selAll "web-1" [("x", "y")] []
     [("rec1/web-", 0)] (by decide) (by decide)).1⟩

/-- C5 counterexample: the finalizer is removed, the map entry
`rec1/db-` is keyed with the recording's name `rec1` as a leading piece,
yet it survives the cleanup (the code checks the reversed direction —
that the stored key is a leading piece of `rec1/web-1` — and stops after
the first deletion), while the claim requires every such entry to be
removed. -/
theorem C5_counterexample :
    hasPre "rec1/db-" "rec1" = true
    ∧ containsFinalizer (setFinalizers .delete recFin selAll "web-1" [] []
        [("rec1/db-", 0)]).1 = false
    ∧ (setFinalizers .delete recFin selAll "web-1" [] []
        [("rec1/db-", 0)]).2 = [("rec1/db-", 0)] := by decide

theorem lookupA_append_left (l1 l2 : KVList) (k : String) (v : String)
    (h : lookupA l1 k = some v) : lookupA (l1 ++ l2) k = some v := by
  unfold lookupA at h ⊢
  cases hf : l1.find? (fun kv => kv.1 == k) with
  | none => simp [hf] at h
  | some kv =>
    rw [List.find?_append, hf]
    simpa [hf] using h

theorem annotateFold_preserves (pr : ProfileRecording) (replica : String) :
    ∀ (names : List String) (acc : KVList × Bool) (k v : String),
      lookupA acc.1 k = some v →
      lookupA ((names.foldl (annotateStep pr replica) acc).1) k = some v := by
  intro names
  induction names with
  | nil => intro acc k v h; exact h
  | cons cn rest ih =>
    intro acc k v h
    simp only [List.foldl_cons]
    cases hk : lookupA acc.1 (ctrAnnotationKey pr replica cn) with
    | some w =>
      have : annotateStep pr replica acc cn = acc := by
        simp [annotateStep, hk]
      rw [this]
      exact ih acc k v h
    | none =>
      have hstep : annotateStep pr replica acc cn
          = (acc.1 ++ [(ctrAnnotationKey pr replica cn,
              ctrAnnotationValue pr replica cn)], true) := by
        simp [annotateStep, hk]
      rw [hstep]
      exact ih _ k v (lookupA_append_left acc.1 _ k v h)

theorem annotateFold_true (pr : ProfileRecording) (replica : String) :
    ∀ (names : List String) (ann : KVList),
      ((names.foldl (annotateStep pr replica) (ann, true)).2) = true := by
  intro names
  induction names with
  | nil => intro ann; rfl
  | cons cn rest ih =>
    intro ann
    simp only [List.foldl_cons]
    cases hk : lookupA ann (ctrAnnotationKey pr replica cn) with
    | none =>
      have hstep : annotateStep pr replica (ann, true) cn
          = (ann ++ [(ctrAnnotationKey pr replica cn,
              ctrAnnotationValue pr replica cn)], true) := by
        simp [annotateStep, hk]
      rw [hstep]
      exact ih _
    | some w =>
      have hstep : annotateStep pr replica (ann, true) cn = (ann, true) := by
        simp [annotateStep, hk]
      rw [hstep]
      exact ih _

theorem annotateFold_changed (pr : ProfileRecording) (replica : String) :
    ∀ (names : List String) (ann : KVList),
      ((names.foldl (annotateStep pr replica) (ann, false)).2 = true ↔
        ∃ cn ∈ names, lookupA ann (ctrAnnotationKey pr replica cn) = none) := by
  intro names
  induction names with
  | nil => intro ann; simp [List.foldl_nil]
  | cons cn rest ih =>
    intro ann
    simp only [List.foldl_cons]
    cases hk : lookupA ann (ctrAnnotationKey pr replica cn) with
    | some w =>
      have hstep : annotateStep pr replica (ann, false) cn = (ann, false) := by
        simp [annotateStep, hk]
      rw [hstep]
      rw [ih ann]
      constructor
      · rintro ⟨c, hc, hc2⟩
        exact ⟨c, List.mem_cons_of_mem _ hc, hc2⟩
      · rintro ⟨c, hc, hc2⟩
        rcases List.mem_cons.mp hc with rfl | hc'
        · rw [hk] at hc2; cases hc2
        · exact ⟨c, hc', hc2⟩
    | none =>
      have hstep : annotateStep pr replica (ann, false) cn
          = (ann ++ [(ctrAnnotationKey pr replica cn,
              ctrAnnotationValue pr replica cn)], true) := by
        simp [annotateStep, hk]
      rw [hstep]
      rw [annotateFold_true pr replica rest _]
      simp only [true_iff]
      exact ⟨cn, List.mem_cons_self _ _, hk⟩

/-- C7: `updatePod` never overwrites an existing annotation (whatever its
value, in particular a differing one: first writer wins), and it reports
the pod changed exactly when some selected container's computed key is
missing from the pod's annotations — an existing key never contributes to
the changed flag; only missing keys are ever set. -/
theorem C7_first_writer_wins (impl : Impl) (pod : Pod) (podName : String)
    (pr : ProfileRecording) (m : ReplicaMap) :
    (∀ k v, lookupA pod.annotations k = some v →
      lookupA (updatePod impl pod podName pr m).1.annotations k = some v)
    ∧ ((updatePod impl pod podName pr m).2.1 = true ↔
        ∃ cn ∈ selectedContainerNames pod pr,
          lookupA pod.annotations
            (ctrAnnotationKey pr (getReplica pod pr m).1 cn) = none) := by
  constructor
  · intro k v h
    exact annotateFold_preserves pr (getReplica pod pr m).1
      (selectedContainerNames pod pr) (pod.annotations, false) k v h
  · exact annotateFold_changed pr (getReplica pod pr m).1
      (selectedContainerNames pod pr) pod.annotations

/-- A concrete pod already annotated under the key `recA`/`app` computes,
with a value differing from the newly computed one. -/
def podAnnA : Pod :=
  { name := "mypod", generateName := "", labels := [],
    annotations := [("io.spo.x-k8s.io/rec1_app", "old")],
    initContainers := [],
    containers := [{ name := "app", securityContext := none }] }

/-- Witness for C7: the conflicting annotation keeps its old value and the
pod is reported unchanged. -/
theorem C7_witness :
    lookupA (updatePod implA podAnnA "mypod" recA []).1.annotations
        "io.spo.x-k8s.io/rec1_app" = some "old"
    ∧ (updatePod implA podAnnA "mypod" recA []).2.1 = false := by
  constructor
  · exact (C7_first_writer_wins implA podAnnA "mypod" recA []).1
      "io.spo.x-k8s.io/rec1_app" "old" (by decide)
  · cases hc : (updatePod implA podAnnA "mypod" recA []).2.1 with
    | false => rfl
    | true =>
      exact absurd ((C7_first_writer_wins implA podAnnA "mypod" recA []).2.mp
        hc) (by decide)

/-- C8: `updatePod` rewrites the security context of exactly the selected
containers (all init and regular containers unless an allow-list names
them) independently of the annotation state; with a `Logs` recorder a
seccomp recording forces a `Localhost` seccomp profile at
`operator/<operator-namespace>/<log-enricher-profile>.json`, a SELinux
recording forces the configured permissive type, and a non-`Logs`
recorder leaves the container untouched. -/
theorem C8_security_context (impl : Impl) (pod : Pod) (podName : String)
    (pr : ProfileRecording) (m : ReplicaMap) (ctr : Container) :
    ((updatePod impl pod podName pr m).1.initContainers
        = pod.initContainers.map (fun c =>
            if shouldRecordContainer c.name pr then
              updateSecurityContext impl c pr else c))
    ∧ ((updatePod impl pod podName pr m).1.containers
        = pod.containers.map (fun c =>
            if shouldRecordContainer c.name pr then
              updateSecurityContext impl c pr else c))
    ∧ (pr.recorder = .logs → pr.kind = .seccomp →
        updateSecurityContext impl ctr pr
          = { ctr with securityContext := some {
              seccompProfile := some {
                type := "Localhost",
                localhostProfile := some ("operator/"
                  ++ impl.operatorNamespace ++ "/" ++ logEnricherProfile
                  ++ ".json") },
              seLinuxOptions := (ctr.securityContext.getD {
                seccompProfile := none,
                seLinuxOptions := none }).seLinuxOptions } })
    ∧ (pr.recorder = .logs → pr.kind = .selinux →
        updateSecurityContext impl ctr pr
          = { ctr with securityContext := some {
              seccompProfile := (ctr.securityContext.getD {
                seccompProfile := none,
                seLinuxOptions := none }).seccompProfile,
              seLinuxOptions := some { type := selinuxPermissiveProfile } } })
    ∧ (pr.recorder ≠ .logs → updateSecurityContext impl ctr pr = ctr) := by
  refine ⟨rfl, rfl, ?_, ?_, ?_⟩
  · intro hr hk
    simp [updateSecurityContext, hr, hk, updateSeccompSecurityContext]
  · intro hr hk
    simp [updateSecurityContext, hr, hk, updateSelinuxSecurityContext]
  · intro hr
    simp [updateSecurityContext, hr]

/-- A bare container fixture. -/
def ctrA : Container := { name := "app", securityContext := none }

/-- Witness for C8: concrete rewrite of a bare container under the
logs/seccomp recording `recA`. -/
theorem C8_witness :
    updateSecurityContext implA ctrA recA
      = { ctrA with securityContext := some {
          seccompProfile := some {
            type := "Localhost",
            localhostProfile := some "operator/spo/log-enricher-trace.json" },
          seLinuxOptions := none } } := by
  have h := (C8_security_context implA podConc "mypod" recA [] ctrA).2.2.1
    rfl rfl
  rw [h]
  decide

/-- C2 evaluation at the failing input: the first recording's Pod Mutator
reports that it changed the pod (it adds an annotation), the second
matching recording's invocation reports no change (its allow-list selects
no container), and `Handle` — whose `podChanged, err = p.updatePod(...)`
overwrites rather than accumulates the flag — returns the unmodified-allow
decision instead of a patch. -/
theorem C2_overwritten_flag :
    (updatePod implA podConc "mypod" recA []).2.1 = true
    ∧ (Handle implA [recA, recB] .create "mypod" podConc (fun _ => [])
        (fun _ => .notFound) []).decision = .allowedUnchanged := by decide

theorem handleLoop_invoked_eq (impl : Impl) (op : Op) (podName : String)
    (podLabels : KVList) (rpo : String → List String)
    (fo : String → FetchResult) :
    ∀ (items : List ProfileRecording) (pod : Pod) (ch : Bool)
      (m : ReplicaMap) (inv : List String)
      (out : Pod × Bool × ReplicaMap × List String),
      handleLoop impl op podName podLabels rpo fo items pod ch m inv
          = .ok out →
      out.2.2.2 = inv ++ (items.filter (fun r => isKindSupported r.kind
        && r.podSelector.matches podLabels)).map (·.name) := by
  intro items
  induction items with
  | nil =>
    intro pod ch m inv out h
    simp only [handleLoop] at h
    cases h
    simp
  | cons item rest ih =>
    intro pod ch m inv out h
    simp only [handleLoop] at h
    split at h
    · rename_i hsup'
      have hsup : isKindSupported item.kind = false := by simpa using hsup'
      rw [ih _ _ _ _ _ h]
      simp [List.filter_cons, hsup]
    · rename_i hsup'
      have hsup : isKindSupported item.kind = true := by simpa using hsup'
      split at h
      · cases h
      · split at h
        · rename_i hmatch
          rw [ih _ _ _ _ _ h]
          simp [List.filter_cons, hsup, hmatch]
        · rename_i hmatch
          rw [ih _ _ _ _ _ h]
          simp [List.filter_cons, hsup, hmatch]

/-- C3 (amended): in a non-erroring run, the Pod Mutator is invoked for a
recording exactly when its kind is supported and its selector matches the
pod's labels — where on Delete the labels are those of the undecoded empty
pod; the operation itself is not consulted at the invocation site (the
claim's "and the operation is not Delete" does not hold, see
`C3_counterexample`). -/
theorem C3_mutator_invocation (impl : Impl)
    (recordings : List ProfileRecording) (op : Op) (reqName : String)
    (decodedPod : Pod) (rpo : String → List String)
    (fo : String → FetchResult) (m0 : ReplicaMap)
    (hok : (Handle impl recordings op reqName decodedPod rpo fo m0).decision
        ≠ .errored) :
    (Handle impl recordings op reqName decodedPod rpo fo m0).invoked
      = (recordings.filter (fun r => isKindSupported r.kind
          && r.podSelector.matches
            (if op = .delete then emptyPod else decodedPod).labels)).map
        (·.name) := by
  cases hL : handleLoop impl op
      (if reqName ≠ "" then reqName
       else (if op = .delete then emptyPod else decodedPod).generateName)
      (if op = .delete then emptyPod else decodedPod).labels rpo fo
      recordings (if op = .delete then emptyPod else decodedPod) false m0 []
    with
  | error e =>
    exfalso
    apply hok
    simp only [Handle, hL]
  | ok out =>
    have hinv := handleLoop_invoked_eq impl op _ _ rpo fo recordings _ _ _ _
      out hL
    obtain ⟨pod, ch, m, inv⟩ := out
    cases ch <;> simp only [Handle, hL] <;> simpa using hinv

/-- C3 counterexample: a Delete request with an empty (match-everything)
selector — the claim requires the mutator not to be invoked on Delete,
yet the handler invokes it (harmlessly, on the empty pod). -/
theorem C3_counterexample :
    (Handle implA [recA] .delete "mypod" podConc (fun _ => [])
        (fun _ => .notFound) []).invoked = ["rec1"] := by decide

/-- Witness for C3 on a non-erroring Create run. -/
theorem C3_witness :
    ((Handle implA [recA] .create "mypod" podConc (fun _ => [])
        (fun _ => .notFound) []).decision ≠ .errored)
    ∧ (Handle implA [recA] .create "mypod" podConc (fun _ => [])
        (fun _ => .notFound) []).invoked
        = ([recA].filter (fun r => isKindSupported r.kind
            && r.podSelector.matches
              (if Op.create = Op.delete then emptyPod
               else podConc).labels)).map (·.name) :=
  ⟨by decide,
   C3_mutator_invocation implA [recA] .create "mypod" podConc (fun _ => [])
     (fun _ => .notFound) [] (by decide)⟩

theorem handleLoop_notFound_ok (impl : Impl) (op : Op) (podName : String)
    (podLabels : KVList) (rpo : String → List String) :
    ∀ (items : List ProfileRecording) (pod : Pod) (ch : Bool)
      (m : ReplicaMap) (inv : List String),
      ∃ out, handleLoop impl op podName podLabels rpo
        (fun _ => .notFound) items pod ch m inv = .ok out := by
  intro items
  induction items with
  | nil => intro pod ch m inv; exact ⟨(pod, ch, m, inv), rfl⟩
  | cons item rest ih =>
    intro pod ch m inv
    simp only [handleLoop]
    by_cases hsup : isKindSupported item.kind = true
    · rw [if_neg (by simp [hsup])]
      by_cases hmatch : item.podSelector.matches podLabels = true
      · simp only [setRecordingReferences, if_pos hmatch]
        exact ih _ _ _ _
      · simp only [setRecordingReferences, if_neg hmatch]
        exact ih _ _ _ _
    · rw [if_pos (by simp [hsup])]
      exact ih _ _ _ _

/-- C9: a not-found re-fetch inside `setRecordingReferences` is a benign
no-op — success, no recording written, replica map untouched; any other
re-fetch error is propagated as a failure; and a request whose re-fetches
all report not-found is never failed by the handler. -/
theorem C9_notfound_benign :
    (∀ (op : Op) (sel : Selector) (podName : String) (podLabels : KVList)
      (recordedPods : List String) (m : ReplicaMap),
      setRecordingReferences op .notFound sel podName podLabels
        recordedPods m = .ok (none, m))
    ∧ (∀ (op : Op) (sel : Selector) (podName : String)
        (podLabels : KVList) (recordedPods : List String) (m : ReplicaMap)
        (msg : String),
        setRecordingReferences op (.fetchErr msg) sel podName podLabels
          recordedPods m
          = .error ("cannot retrieve profilerecording: " ++ msg))
    ∧ (∀ (impl : Impl) (recordings : List ProfileRecording) (op : Op)
        (reqName : String) (decodedPod : Pod) (rpo : String → List String)
        (m0 : ReplicaMap),
        (Handle impl recordings op reqName decodedPod rpo
          (fun _ => .notFound) m0).decision ≠ .errored) := by
  refine ⟨fun _ _ _ _ _ _ => rfl, fun _ _ _ _ _ _ _ => rfl, ?_⟩
  intro impl recordings op reqName decodedPod rpo m0
  obtain ⟨out, hout⟩ := handleLoop_notFound_ok impl op
    (if reqName ≠ "" then reqName
     else (if op = .delete then emptyPod else decodedPod).generateName)
    (if op = .delete then emptyPod else decodedPod).labels rpo recordings
    (if op = .delete then emptyPod else decodedPod) false m0 []
  obtain ⟨pod, ch, m, inv⟩ := out
  cases ch <;> simp only [Handle, hout] <;> simp

/-- Witness for C9 at concrete inputs. -/
theorem C9_witness :
    setRecordingReferences .create .notFound selAll "p" [] [] []
        = .ok (none, [])
    ∧ (Handle implA [recA] .create "p" podConc (fun _ => [])
        (fun _ => .notFound) []).decision ≠ .errored :=
  ⟨C9_notfound_benign.1 .create selAll "p" [] [] [],
   C9_notfound_benign.2.2 implA [recA] .create "p" podConc (fun _ => []) []⟩

theorem updatePod_emptyPod (impl : Impl) (podName : String)
    (pr : ProfileRecording) (m : ReplicaMap) :
    updatePod impl emptyPod podName pr m = (emptyPod, false, m) := rfl

theorem handleLoop_delete_nochange (impl : Impl) (podName : String)
    (rpo : String → List String) (fo : String → FetchResult) :
    ∀ (items : List ProfileRecording) (podLabels : KVList) (m : ReplicaMap)
      (inv : List String) (out : Pod × Bool × ReplicaMap × List String),
      handleLoop impl .delete podName podLabels rpo fo items emptyPod false
          m inv = .ok out →
      out.2.1 = false := by
  intro items
  induction items with
  | nil =>
    intro podLabels m inv out h
    simp only [handleLoop] at h
    cases h
    rfl
  | cons item rest ih =>
    intro podLabels m inv out h
    simp only [handleLoop] at h
    split at h
    · exact ih _ _ _ _ h
    · split at h
      · cases h
      · split at h
        · rw [updatePod_emptyPod] at h
          exact ih _ _ _ _ h
        · exact ih _ _ _ _ h

/-- C10: a Delete request never yields a patch decision: the pod payload
is not decoded (the empty pod is used), every mutator invocation selects
no containers and reports no change, so the handler answers with the
unmodified-allow decision (or an error, never a patch). -/
theorem C10_delete_no_patch (impl : Impl)
    (recordings : List ProfileRecording) (reqName : String)
    (decodedPod : Pod) (rpo : String → List String)
    (fo : String → FetchResult) (m0 : ReplicaMap) (p : Pod) :
    (Handle impl recordings .delete reqName decodedPod rpo fo m0).decision
      ≠ .patched p := by
  cases hL : handleLoop impl .delete
      (if reqName = "" then emptyPod.generateName else reqName)
      emptyPod.labels rpo fo recordings emptyPod false m0 [] with
  | error e => simp [Handle, hL]
  | ok out =>
    have hch := handleLoop_delete_nochange impl _ rpo fo recordings _ m0 []
      out hL
    obtain ⟨pod, ch, m, inv⟩ := out
    cases ch with
    | false => simp [Handle, hL]
    | true => cases hch

/-- Witness for C10 at a concrete input. -/
theorem C10_witness :
    (Handle implA [recA] .delete "mypod" podConc (fun _ => [])
        (fun _ => .notFound) []).decision ≠ .patched emptyPod :=
  C10_delete_no_patch implA [recA] "mypod" podConc (fun _ => [])
    (fun _ => .notFound) [] emptyPod

end SPORec
